import Mathlib

/-
Verification development for the skillz tool server.

The definitions below are a shallow embedding of the Rust sources:
  - src/memory.rs   (Memory store: per-tool key/value with TTL)
  - src/registry.rs (ToolRegistry: manifests, on-disk layout, lookups)
  - src/runtime.rs  (script executor: argument normalization, safe
                     environment, stdout JSON-RPC loop, log collection)
  - src/pipeline.rs (variable resolution and condition evaluation)
  - src/main.rs     (register_script guard, execute_pipeline step loop)

Machine integers are modelled as Nat/Int, byte payloads as String,
wall-clock instants as Nat seconds, and the SQL table of memory.rs as an
association list keyed by (tool, key).  External library calls
(serde_json parsing, the filesystem, subprocess spawning) are modelled
as explicit parameters or as input data, never reimplemented.
-/

namespace Skillz

/-- JSON values, mirroring serde_json::Value.  Numbers are modelled as
integers (no claim depends on float-valued JSON numbers). -/
inductive Json where
  | null : Json
  | bool (b : Bool) : Json
  | num (n : Int) : Json
  | str (s : String) : Json
  | arr (elems : List Json) : Json
  | obj (fields : List (String × Json)) : Json
deriving Inhabited

mutual

/-- Structural equality of JSON values (PartialEq on serde_json::Value;
object fields are compared in order, which agrees with the source on
every value the claims touch). -/
def jsonEq : Json → Json → Bool
  | Json.null, Json.null => true
  | Json.bool a, Json.bool b => a == b
  | Json.num a, Json.num b => a == b
  | Json.str a, Json.str b => a == b
  | Json.arr a, Json.arr b => jsonEqList a b
  | Json.obj a, Json.obj b => jsonEqFields a b
  | _, _ => false

def jsonEqList : List Json → List Json → Bool
  | [], [] => true
  | a :: as, b :: bs => jsonEq a b && jsonEqList as bs
  | _, _ => false

def jsonEqFields : List (String × Json) → List (String × Json) → Bool
  | [], [] => true
  | (k1, v1) :: as, (k2, v2) :: bs => k1 == k2 && jsonEq v1 v2 && jsonEqFields as bs
  | _, _ => false

end

/-- Field lookup on a JSON value: serde_json Value::get with a string
key returns a field of an object and None on every other variant. -/
def jsonGet (j : Json) (key : String) : Option Json :=
  match j with
  | Json.obj fields => lookupField fields key
  | _ => none
where
  lookupField : List (String × Json) → String → Option Json
    | [], _ => none
    | (k, v) :: rest, key => if k == key then some v else lookupField rest key

/-- Association-list lookup keyed by String (models HashMap::get). -/
def alookup {α : Type} : List (String × α) → String → Option α
  | [], _ => none
  | (k, v) :: rest, key => if k == key then some v else alookup rest key

/-- Association-list insert-or-replace keyed by String (models
HashMap::insert). -/
def alinsert {α : Type} : List (String × α) → String → α → List (String × α)
  | [], key, v => [(key, v)]
  | (k, w) :: rest, key, v =>
    if k == key then (k, v) :: rest else (k, w) :: alinsert rest key v

theorem alookup_alinsert_self {α : Type} (l : List (String × α)) (key : String) (v : α) :
    alookup (alinsert l key v) key = some v := by
  induction l with
  | nil => simp [alinsert, alookup]
  | cons hd tl ih =>
    obtain ⟨k, w⟩ := hd
    by_cases h : k == key
    · simp [alinsert, alookup, h]
    · simp only [alinsert, alookup, h]
      simpa [h] using ih

theorem alookup_alinsert_other {α : Type} (l : List (String × α)) (key key2 : String) (v : α)
    (h : key ≠ key2) : alookup (alinsert l key v) key2 = alookup l key2 := by
  induction l with
  | nil => simp [alinsert, alookup, h]
  | cons hd tl ih =>
    obtain ⟨k, w⟩ := hd
    by_cases hk : k == key
    · have hkk : k = key := by simpa using hk
      subst hkk
      simp [alinsert, alookup, hk, h]
    · simp only [alinsert, hk, Bool.false_eq_true, if_false, alookup]
      by_cases hk2 : k == key2
      · simp [hk2]
      · simp [hk2, ih]

/-! ### Memory store (src/memory.rs)

The `memories` table has UNIQUE(tool, key); it is modelled as an
association list keyed by (tool, key).  `datetime` instants are Nat
seconds; the SQL `expires_at > datetime('now')` comparison becomes a
strict Nat comparison. -/

/-- Row of the memories table: value, created_at, updated_at and the
optional expires_at (NULL means no expiration). -/
structure MemEntry where
  value : Json
  created_at : Nat
  updated_at : Nat
  expires_at : Option Nat

/-- The memories table. -/
def MemDB : Type := List ((String × String) × MemEntry)

/-- Row lookup by (tool, key); the UNIQUE constraint means the first
match is the only one. -/
def memFind : MemDB → String → String → Option MemEntry
  | [], _, _ => none
  | ((t, k), e) :: rest, tool, key =>
    if t == tool && k == key then some e else memFind rest tool key

/-- INSERT .. ON CONFLICT(tool, key) DO UPDATE: a fresh row keeps
created_at = now; an updated row keeps its created_at and refreshes
value, updated_at and expires_at (memory.rs::set_with_ttl SQL). -/
def memUpsert (db : MemDB) (now : Nat) (tool key : String) (v : Json) (expires : Option Nat) :
    MemDB :=
  match db with
  | [] => [((tool, key), ⟨v, now, now, expires⟩)]
  | ((t, k), e) :: rest =>
    if t == tool && k == key then
      ((t, k), ⟨v, e.created_at, now, expires⟩) :: rest
    else
      ((t, k), e) :: memUpsert rest now tool key v expires

/-- Memory::set_with_ttl: a ttl of None or 0 stores expires_at = NULL;
a ttl of T > 0 stores expires_at = now + T
(datetime('now', '+T seconds')). -/
def Memory.set_with_ttl (db : MemDB) (now : Nat) (tool key : String) (v : Json)
    (ttl_secs : Option Nat) : MemDB :=
  let expires_at : Option Nat :=
    match ttl_secs with
    | some t => if t > 0 then some (now + t) else none
    | none => none
  memUpsert db now tool key v expires_at

/-- Memory::get: returns the value when the row exists and either
expires_at IS NULL or expires_at > now. -/
def Memory.get (db : MemDB) (now : Nat) (tool key : String) : Option Json :=
  match memFind db tool key with
  | some e =>
    match e.expires_at with
    | none => some e.value
    | some exp => if now < exp then some e.value else none
  | none => none

theorem memFind_memUpsert_self (db : MemDB) (now : Nat) (tool key : String) (v : Json)
    (expires : Option Nat) :
    ∃ c, memFind (memUpsert db now tool key v expires) tool key = some ⟨v, c, now, expires⟩ := by
  induction db with
  | nil => exact ⟨now, by simp [memUpsert, memFind]⟩
  | cons hd tl ih =>
    obtain ⟨⟨t, k⟩, e⟩ := hd
    by_cases h : (t == tool && k == key) = true
    · exact ⟨e.created_at, by simp [memUpsert, memFind, h]⟩
    · obtain ⟨c, hc⟩ := ih
      refine ⟨c, ?_⟩
      simp only [memUpsert, h, Bool.false_eq_true, if_false, memFind]
      simpa [h] using hc

theorem memFind_memUpsert_other (db : MemDB) (now : Nat) (tool key tool2 key2 : String)
    (v : Json) (expires : Option Nat) (h : tool ≠ tool2 ∨ key ≠ key2) :
    memFind (memUpsert db now tool key v expires) tool2 key2 = memFind db tool2 key2 := by
  have hne : (tool == tool2 && key == key2) = false := by
    rcases h with h | h <;> simp [h, Bool.and_eq_false_iff]
  induction db with
  | nil => simp [memUpsert, memFind, hne]
  | cons hd tl ih =>
    obtain ⟨⟨t, k⟩, e⟩ := hd
    by_cases hk : (t == tool && k == key) = true
    · have ht : t = tool := by
        have := (Bool.and_eq_true _ _).mp hk
        simpa using this.1
      have hkk : k = key := by
        have := (Bool.and_eq_true _ _).mp hk
        simpa using this.2
      subst ht; subst hkk
      simp [memUpsert, hk, memFind, hne]
    · simp only [memUpsert, hk, Bool.false_eq_true, if_false, memFind]
      by_cases h2 : (t == tool2 && k == key2) = true
      · simp [h2]
      · simp [h2, ih]

theorem Memory.get_memUpsert_self (db : MemDB) (now : Nat) (tool key : String) (v : Json)
    (expires : Option Nat) (tget : Nat) :
    Memory.get (memUpsert db now tool key v expires) tget tool key =
      match expires with
      | none => some v
      | some exp => if tget < exp then some v else none := by
  obtain ⟨c, hc⟩ := memFind_memUpsert_self db now tool key v expires
  unfold Memory.get
  rw [hc]

/-- C6.  Memory set/get TTL semantics: a set with ttl None or 0 never
expires and a later get at any instant returns the value; a set with
ttl T > 0 is visible to gets strictly before set-time + T and invisible
to gets strictly after set-time + T. -/
theorem memory_ttl_semantics (db : MemDB) (tool key : String) (v : Json)
    (ttl : Option Nat) (tset tget : Nat) :
    ((ttl = none ∨ ttl = some 0) →
      Memory.get (Memory.set_with_ttl db tset tool key v ttl) tget tool key = some v)
    ∧ (∀ T : Nat, ttl = some T → 0 < T →
        (tget < tset + T →
          Memory.get (Memory.set_with_ttl db tset tool key v ttl) tget tool key = some v)
        ∧ (tset + T < tget →
          Memory.get (Memory.set_with_ttl db tset tool key v ttl) tget tool key = none)) := by
  constructor
  · intro h
    rcases h with h | h <;> subst h <;>
      simp [Memory.set_with_ttl, Memory.get_memUpsert_self]
  · intro T hT hTpos
    subst hT
    constructor
    · intro hlt
      simp [Memory.set_with_ttl, Memory.get_memUpsert_self, hTpos, hlt]
    · intro hgt
      have hnlt : ¬ tget < tset + T := by omega
      simp [Memory.set_with_ttl, Memory.get_memUpsert_self, hTpos, hnlt]

/-- C6 witness: a concrete no-ttl set is visible later, and a ttl-2 set
is visible at elapsed 1 and invisible at elapsed 3. -/
theorem memory_ttl_semantics_witness :
    Memory.get (Memory.set_with_ttl [] 10 "tool" "k" (Json.num 7) none) 1000 "tool" "k"
      = some (Json.num 7)
    ∧ Memory.get (Memory.set_with_ttl [] 10 "tool" "k" (Json.num 7) (some 2)) 11 "tool" "k"
      = some (Json.num 7)
    ∧ Memory.get (Memory.set_with_ttl [] 10 "tool" "k" (Json.num 7) (some 2)) 13 "tool" "k"
      = none := by
  refine ⟨?_, ?_, ?_⟩
  · exact (memory_ttl_semantics [] "tool" "k" (Json.num 7) none 10 1000).1 (Or.inl rfl)
  · exact ((memory_ttl_semantics [] "tool" "k" (Json.num 7) (some 2) 10 11).2 2 rfl
      (by decide)).1 (by decide)
  · exact ((memory_ttl_semantics [] "tool" "k" (Json.num 7) (some 2) 10 13).2 2 rfl
      (by decide)).2 (by decide)

/-- C7.  Per-tool isolation: when no row exists for (tool_b, k), a set
under tool_a is invisible to a get under tool_b, at any instants and
with any ttl. -/
theorem memory_per_tool_isolation (db : MemDB) (toolA toolB k : String) (X : Json)
    (ttl : Option Nat) (tset tget : Nat) (hne : toolA ≠ toolB)
    (habs : memFind db toolB k = none) :
    Memory.get (Memory.set_with_ttl db tset toolA k X ttl) tget toolB k = none := by
  unfold Memory.set_with_ttl Memory.get
  rw [memFind_memUpsert_other db tset toolA k toolB k X _ (Or.inl hne), habs]

/-- C7 witness: a concrete cross-tool read misses. -/
theorem memory_per_tool_isolation_witness :
    Memory.get (Memory.set_with_ttl [] 5 "tool_a" "k" (Json.str "X") none) 6 "tool_b" "k"
      = none :=
  memory_per_tool_isolation [] "tool_a" "tool_b" "k" (Json.str "X") none 5 6
    (by decide) rfl

/-! ### Tool registry (src/registry.rs)

The on-disk tree under storage_dir is modelled per tool directory:
manifest.json content, the remaining files (name -> content, payload
bytes as String), and the versions/ subtree.  The in-memory HashMap of
ToolConfig records is an association list.  A single quote character is
built numerically so message strings match the Rust format! output. -/

/-- Single-quote character used in the Rust error messages. -/
def squote : String := (Char.ofNat 39).toString

/-- ToolType from registry.rs. -/
inductive ToolType where
  | wasm
  | script
  | pipeline
deriving DecidableEq

/-- PipelineStep from registry.rs: ordered element of a pipeline
manifest. -/
structure PipelineStep where
  name : Option String
  tool : String
  args : Json
  continue_on_error : Bool
  condition : Option String

/-- ToolManifest from registry.rs.  The two JSON-schema fields and the
annotations hints are carried as raw JSON values (the source wraps them
in ToolSchema / ToolAnnotations, which no claim inspects). -/
structure ToolManifest where
  name : String
  version : String
  description : String
  tool_type : ToolType
  entry_file : Option String
  interpreter : Option String
  input_schema : Json
  output_schema : Option Json
  annotations : Option Json
  dependencies : List String
  wasm_dependencies : List String
  pipeline_steps : List PipelineStep
  author : Option String
  license : Option String
  repository : Option String
  tags : List String
  created_at : Option String
  updated_at : Option String

/-- ToolManifest::new: fresh manifest at version 1.0.0 with both
timestamps set to the current instant (chrono_now passed in as a
string, since wall-clock time is external). -/
def ToolManifest.new (name description : String) (tool_type : ToolType) (now : String) :
    ToolManifest where
  name := name
  version := "1.0.0"
  description := description
  tool_type := tool_type
  entry_file := none
  interpreter := none
  input_schema := Json.obj [("type", Json.str "object")]
  output_schema := none
  annotations := none
  dependencies := []
  wasm_dependencies := []
  pipeline_steps := []
  author := none
  license := none
  repository := none
  tags := []
  created_at := some now
  updated_at := some now

/-- ToolConfig from registry.rs: manifest plus resolved paths. -/
structure ToolConfig where
  manifest : ToolManifest
  tool_dir : String
  wasm_path : String
  script_path : String
  env_path : Option String
  deps_installed : Bool

/-- One tool directory on disk: the manifest.json content, the other
files (filename -> contents) and the versions/ subtree
(version -> snapshot of manifest and files). -/
structure ToolDir where
  manifest : Option ToolManifest
  files : List (String × String)
  versions : List (String × (Option ToolManifest × List (String × String)))

/-- An empty, freshly created tool directory (fs::create_dir_all). -/
def ToolDir.empty : ToolDir := ⟨none, [], []⟩

/-- ToolRegistry state: the storage root, the on-disk tree and the
in-memory tools HashMap. -/
structure RegistryState where
  storage_dir : String
  disk : List (String × ToolDir)
  tools : List (String × ToolConfig)

/-- Extension chosen when a script manifest has no entry_file
(registry.rs::register_script_tool and load_tool_from_dir). -/
def interpreterExt : Option String → String
  | some "python3" | some "python" => "py"
  | some "node" | some "nodejs" => "js"
  | some "ruby" => "rb"
  | some "bash" | some "sh" => "sh"
  | some "perl" => "pl"
  | some "php" => "php"
  | _ => "script"

/-- ToolRegistry::register_wasm_tool: creates the directory, writes the
manifest as given, writes the .wasm payload, optionally preserves
src.rs, and replaces the in-memory record.  NOTE: the function performs
no version backup and no version increment. -/
def register_wasm_tool (st : RegistryState) (manifest : ToolManifest)
    (wasm_bytes : String) (source_code : String) : ToolConfig × RegistryState :=
  let tool_dir := st.storage_dir ++ "/" ++ manifest.name
  let dir0 := (alookup st.disk manifest.name).getD ToolDir.empty
  let wasm_name := manifest.name ++ ".wasm"
  let dir1 : ToolDir :=
    { dir0 with
      manifest := some manifest,
      files := alinsert dir0.files wasm_name wasm_bytes }
  let dir2 : ToolDir :=
    if source_code = "" then dir1
    else { dir1 with files := alinsert dir1.files "src.rs" source_code }
  let config : ToolConfig :=
    { manifest := manifest
      tool_dir := tool_dir
      wasm_path := tool_dir ++ "/" ++ wasm_name
      script_path := ""
      env_path := none
      deps_installed := false }
  (config,
    { st with
      disk := alinsert st.disk manifest.name dir2,
      tools := alinsert st.tools manifest.name config })

/-- ToolRegistry::register_script_tool: determines the script filename
(entry_file or name.ext from the interpreter), defaults entry_file in
the manifest, writes manifest and script (chmod 755 is not modelled),
and replaces the in-memory record. -/
def register_script_tool (st : RegistryState) (manifest : ToolManifest) (code : String) :
    ToolConfig × RegistryState :=
  let tool_dir := st.storage_dir ++ "/" ++ manifest.name
  let dir0 := (alookup st.disk manifest.name).getD ToolDir.empty
  let script_filename :=
    match manifest.entry_file with
    | some entry => entry
    | none => manifest.name ++ "." ++ interpreterExt manifest.interpreter
  let manifest2 :=
    if manifest.entry_file.isNone then { manifest with entry_file := some script_filename }
    else manifest
  let dir1 : ToolDir :=
    { dir0 with
      manifest := some manifest2,
      files := alinsert dir0.files script_filename code }
  let config : ToolConfig :=
    { manifest := manifest2
      tool_dir := tool_dir
      wasm_path := ""
      script_path := tool_dir ++ "/" ++ script_filename
      env_path := none
      deps_installed := false }
  (config,
    { st with
      disk := alinsert st.disk manifest2.name dir1,
      tools := alinsert st.tools manifest2.name config })

/-- ToolRegistry::register_pipeline_tool: writes only the manifest;
deps_installed is set to true. -/
def register_pipeline_tool (st : RegistryState) (manifest : ToolManifest) :
    ToolConfig × RegistryState :=
  let tool_dir := st.storage_dir ++ "/" ++ manifest.name
  let dir0 := (alookup st.disk manifest.name).getD ToolDir.empty
  let dir1 : ToolDir := { dir0 with manifest := some manifest }
  let config : ToolConfig :=
    { manifest := manifest
      tool_dir := tool_dir
      wasm_path := ""
      script_path := ""
      env_path := none
      deps_installed := true }
  (config,
    { st with
      disk := alinsert st.disk manifest.name dir1,
      tools := alinsert st.tools manifest.name config })

/-- ToolRegistry::register_tool: dispatch on tool_type. -/
def register_tool (st : RegistryState) (manifest : ToolManifest) (code : String) :
    ToolConfig × RegistryState :=
  match manifest.tool_type with
  | ToolType.wasm => register_wasm_tool st manifest code ""
  | ToolType.script => register_script_tool st manifest code
  | ToolType.pipeline => register_pipeline_tool st manifest

/-- ToolRegistry::get_tool: in-memory HashMap lookup. -/
def get_tool (st : RegistryState) (name : String) : Option ToolConfig :=
  alookup st.tools name

/-- ToolRegistry::delete_tool: removes the in-memory record first; when
the record existed and the directory exists the directory is removed
(fsOk models whether fs::remove_dir_all succeeds); an absent record
returns Ok(false) with no filesystem access. -/
def delete_tool (st : RegistryState) (name : String) (fsOk : Bool) :
    Except String Bool × RegistryState :=
  match alookup st.tools name with
  | some _ =>
    let tools2 := st.tools.filter (fun p => !(p.1 == name))
    match alookup st.disk name with
    | some _ =>
      if fsOk then
        (Except.ok true,
          { st with tools := tools2, disk := st.disk.filter (fun p => !(p.1 == name)) })
      else
        (Except.error "failed to remove tool directory", { st with tools := tools2 })
    | none => (Except.ok true, { st with tools := tools2 })
  | none => (Except.ok false, st)

theorem alookup_filter_self {α : Type} (l : List (String × α)) (name : String) :
    alookup (l.filter (fun p => !(p.1 == name))) name = none := by
  induction l with
  | nil => simp [alookup]
  | cons hd tl ih =>
    obtain ⟨k, v⟩ := hd
    by_cases h : k == name
    · simp [List.filter, h, ih]
    · simp [List.filter, h, alookup, ih]

/-- C8.  delete_tool then get_tool yields None (in every branch,
including a failing directory removal, since the in-memory record is
removed before the filesystem call); delete_tool on an absent name
returns Ok(false) and leaves the state untouched. -/
theorem delete_then_get (st : RegistryState) (name : String) (fsOk : Bool) :
    get_tool (delete_tool st name fsOk).2 name = none
    ∧ (get_tool st name = none → delete_tool st name fsOk = (Except.ok false, st)) := by
  constructor
  · unfold delete_tool get_tool
    cases h : alookup st.tools name with
    | none => simp [h]
    | some cfg =>
      cases hd : alookup st.disk name with
      | none => simp [h, hd, alookup_filter_self]
      | some d =>
        cases fsOk <;> simp [h, hd, alookup_filter_self]
  · intro habs
    unfold delete_tool
    unfold get_tool at habs
    simp [habs]

/-- Concrete one-tool registry state used by witnesses: a script tool
named t registered under /tools. -/
def regWitnessState : RegistryState :=
  (register_tool
    { storage_dir := "/tools", disk := [], tools := [] }
    ({ ToolManifest.new "t" "demo tool" ToolType.script "2024-01-01T00:00:00Z" with
        interpreter := some "python3" })
    "print(1)").2

/-- C8 witness: deleting a registered tool makes get_tool miss, and
deleting an unknown name returns Ok(false) unchanged. -/
theorem delete_then_get_witness :
    (get_tool (delete_tool regWitnessState "t" true).2 "t" = none)
    ∧ (delete_tool regWitnessState "missing" true = (Except.ok false, regWitnessState)) :=
  ⟨(delete_then_get regWitnessState "t" true).1,
   (delete_then_get regWitnessState "missing" true).2 rfl⟩

/-- ToolRegistry::mark_deps_installed: flips deps_installed and records
env_path = tool_dir/env on the in-memory record. -/
def mark_deps_installed (st : RegistryState) (tool_name : String) : RegistryState :=
  match alookup st.tools tool_name with
  | some cfg =>
    { st with
      tools := alinsert st.tools tool_name
        { cfg with deps_installed := true, env_path := some (cfg.tool_dir ++ "/env") } }
  | none => st

/-- The register_script meta-tool from main.rs: guard on an existing
name without overwrite, then build the manifest and call
register_tool; when the manifest lists dependencies, install_tool_deps
runs (an external subprocess, modelled by installOk) and on success
mark_deps_installed is applied.  The error-branch message is embedded
verbatim; the success-branch status text is carried without its emoji
prefix, directory echo and dependency report, which no claim inspects. -/
def register_script (st : RegistryState) (now : String) (name description : String)
    (interpreter : Option String) (overwrite : Option Bool)
    (input_schema output_schema annotationsArg : Option Json)
    (dependencies : Option (List String)) (code : String) (installOk : Bool) :
    String × RegistryState :=
  if (get_tool st name).isSome && !(overwrite.getD false) then
    ("Error: Tool " ++ squote ++ name ++ squote ++
      " already exists. Use overwrite=true to update it.", st)
  else
    let m0 := ToolManifest.new name description ToolType.script now
    let m1 := { m0 with
      interpreter := interpreter,
      input_schema := input_schema.getD m0.input_schema,
      output_schema := output_schema,
      annotations := annotationsArg,
      dependencies := dependencies.getD [] }
    let cs := register_tool st m1 code
    let config := cs.1
    let st2 :=
      if !config.manifest.dependencies.isEmpty && installOk then
        mark_deps_installed cs.2 name
      else cs.2
    let interpreter_info :=
      match interpreter with
      | some i => " (via " ++ i ++ ")"
      | none => ""
    let msg :=
      if overwrite.getD false then
        "Script Tool " ++ squote ++ name ++ squote ++ interpreter_info
          ++ " updated successfully"
      else
        "Script Tool " ++ squote ++ name ++ squote ++ interpreter_info ++ " registered"
    (msg, st2)

/-- C2.  Registering a name that already exists, without the caller
requesting overwrite, returns the already-exists error and leaves the
registry state (on-disk tree and in-memory records) exactly as it was. -/
theorem register_existing_without_overwrite_fails (st : RegistryState)
    (now name description : String) (interpreter : Option String) (overwrite : Option Bool)
    (is os ann : Option Json) (deps : Option (List String)) (code : String) (installOk : Bool)
    (hex : (get_tool st name).isSome = true)
    (hov : overwrite.getD false = false) :
    register_script st now name description interpreter overwrite is os ann deps code installOk
      = ("Error: Tool " ++ squote ++ name ++ squote ++
          " already exists. Use overwrite=true to update it.", st) := by
  unfold register_script
  simp [hex, hov]

/-- C2 witness: re-registering the concrete tool t without overwrite
fails and returns the untouched state. -/
theorem register_existing_without_overwrite_fails_witness :
    register_script regWitnessState "2024-06-01T00:00:00Z" "t" "again" none none
        none none none none "print(2)" true
      = ("Error: Tool " ++ squote ++ "t" ++ squote ++
          " already exists. Use overwrite=true to update it.", regWitnessState) :=
  register_existing_without_overwrite_fails regWitnessState "2024-06-01T00:00:00Z" "t"
    "again" none none none none none none "print(2)" true (by decide) rfl

/-- Registry state after the first registration of the WASM tool t at
version 1.0.0 with payload OLDBYTES. -/
def c1State0 : RegistryState :=
  (register_wasm_tool { storage_dir := "/tools", disk := [], tools := [] }
    (ToolManifest.new "t" "original" ToolType.wasm "2024-01-01T00:00:00Z")
    "OLDBYTES" "").2

/-- Registry state after re-registering t (the update path of
build_tool: a fresh manifest, again at version 1.0.0, with the new
payload NEWBYTES). -/
def c1State1 : RegistryState :=
  (register_wasm_tool c1State0
    (ToolManifest.new "t" "updated" ToolType.wasm "2024-06-01T00:00:00Z")
    "NEWBYTES" "").2

/-- C1 evaluation at the failing input: after re-registering the
existing tool t, the versions/ subtree is still empty (no backup was
taken), the in-memory and on-disk manifest versions are still 1.0.0
(no PATCH increment), and the live payload has been overwritten. -/
theorem register_wasm_no_backup_no_increment :
    ((alookup c1State1.disk "t").map ToolDir.versions = some [])
    ∧ ((get_tool c1State1 "t").map (fun c => c.manifest.version) = some "1.0.0")
    ∧ (((alookup c1State1.disk "t").bind ToolDir.manifest).map ToolManifest.version
        = some "1.0.0")
    ∧ ((alookup c1State1.disk "t").map (fun d => alookup d.files "t.wasm")
        = some (some "NEWBYTES")) := by
  refine ⟨rfl, rfl, rfl, rfl⟩

/-! ### Safe environment (src/runtime.rs, ExecutionContext::default) -/

/-- The allow-list the source iterates over when building
context.environment. -/
def SAFE_ENV_KEYS : List String := ["HOME", "USER", "LANG", "PATH", "TERM"]

/-- ExecutionContext::default environment construction: for each key of
the allow-list that is set in the host environment, copy it.  No other
host variable is consulted. -/
def safe_environment (host : List (String × String)) : List (String × String) :=
  SAFE_ENV_KEYS.foldl
    (fun env k =>
      match alookup host k with
      | some v => env ++ [(k, v)]
      | none => env)
    []

/-- C3 evaluation at the failing input: with HOME and SKILLZ_API_KEY
set in the host environment, the environment map passed to the script
contains HOME but not SKILLZ_API_KEY — the SKILLZ_ prefix forwarding
promised by the spec (and by the tool_guide text in main.rs) is absent
from ExecutionContext::default. -/
theorem safe_environment_drops_skillz_vars :
    safe_environment [("HOME", "/root"), ("SKILLZ_API_KEY", "secret")] = [("HOME", "/root")]
    ∧ alookup [("HOME", "/root"), ("SKILLZ_API_KEY", "secret")] "SKILLZ_API_KEY"
        = some "secret"
    ∧ alookup (safe_environment [("HOME", "/root"), ("SKILLZ_API_KEY", "secret")])
        "SKILLZ_API_KEY" = none := by
  refine ⟨rfl, rfl, rfl⟩

/-! ### Script argument normalization (src/runtime.rs, call_script_tool) -/

/-- True exactly on JSON objects. -/
def Json.isObj : Json → Bool
  | Json.obj _ => true
  | _ => false

/-- Argument normalization at the top of call_script_tool: a string
argument is re-parsed (serde_json::from_str, passed in as the external
parse function); on success the parsed value replaces it, otherwise the
original value is kept; non-string arguments pass through. -/
def normalize_arguments (parse : String → Option Json) (args : Json) : Json :=
  match args with
  | Json.str s => (parse s).getD args
  | _ => args

/-- C5.  Passing an object o and passing a string whose contents parse
to o deliver the same arguments value to the tool, and a string that
does not parse as JSON is passed through unchanged. -/
theorem arguments_normalization_robust (parse : String → Option Json) (s : String)
    (o : Json) (ho : o.isObj = true) (hp : parse s = some o) :
    normalize_arguments parse (Json.str s) = normalize_arguments parse o
    ∧ (∀ s2, parse s2 = none → normalize_arguments parse (Json.str s2) = Json.str s2) := by
  constructor
  · cases o <;> simp_all [normalize_arguments, Json.isObj]
  · intro s2 h2
    simp [normalize_arguments, h2]

/-- Concrete stand-in for serde_json::from_str used by the C5 witness. -/
def parseWitness : String → Option Json :=
  fun t => if t == "x" then some (Json.obj [("a", Json.num 1)]) else none

/-- C5 witness: the two argument shapes normalize identically at a
concrete parse function, and an unparseable string passes through. -/
theorem arguments_normalization_robust_witness :
    normalize_arguments parseWitness (Json.str "x")
      = normalize_arguments parseWitness (Json.obj [("a", Json.num 1)])
    ∧ normalize_arguments parseWitness (Json.str "nope") = Json.str "nope" :=
  ⟨(arguments_normalization_robust parseWitness "x" (Json.obj [("a", Json.num 1)])
      rfl rfl).1,
   (arguments_normalization_robust parseWitness "x" (Json.obj [("a", Json.num 1)])
      rfl rfl).2 "nope" rfl⟩

/-! ### Pipeline executor (src/pipeline.rs and main.rs execute_pipeline)

Variable resolution and condition evaluation are pure functions of
(args, input, step_results, prev_output); the step loop of
main.rs::execute_pipeline is folded over the declared steps with the
tool invocation supplied as an oracle exec (the Runtime Facade call).
Wall-clock step durations are modelled as 0. -/

/-- Double-quote character (built numerically). -/
def dquoteChar : Char := Char.ofNat 34

/-- Single-quote character (built numerically). -/
def squoteChar : Char := Char.ofNat 39

/-- Rust str::trim_matches(c): strip every leading and trailing
occurrence of the character. -/
def trimMatchesChar (s : String) (c : Char) : String :=
  String.mk (((s.toList.dropWhile (fun a => a == c)).reverse.dropWhile
    (fun a => a == c)).reverse)

/-- Rust str::contains(pat) for a nonempty literal pattern: the split
has more than one part exactly when the pattern occurs. -/
def contains_substr (s pat : String) : Bool :=
  (s.splitOn pat).length > 1

/-- Path navigation inside resolve_variable: serde Value::get per
component, with the source error message on a missing field. -/
def navigatePath : List String → Json → String → Except String Json
  | [], cur, _ => Except.ok cur
  | p :: rest, cur, source =>
    match jsonGet cur p with
    | some nxt => navigatePath rest nxt source
    | none =>
      Except.error ("Field " ++ squote ++ p ++ squote ++ " not found in " ++ source)

/-- PipelineExecutor::resolve_variable: strip the leading dollar signs,
handle the bare prev reference, then split source.path and navigate. -/
def resolve_variable (var : String) (input : Json) (step_results : List (String × Json))
    (prev_output : Option Json) : Except String Json :=
  let v := String.mk (var.toList.dropWhile (fun c => c == '$'))
  if v == "prev" then
    match prev_output with
    | some p => Except.ok p
    | none => Except.error "No previous step output available"
  else
    match v.splitOn "." with
    | [] => Except.error ("Invalid variable reference: $" ++ v)
    | source :: path =>
      let srcVal : Except String Json :=
        if source == "input" then Except.ok input
        else if source == "prev" then
          match prev_output with
          | some p => Except.ok p
          | none => Except.error "No previous step output available"
        else
          match alookup step_results source with
          | some val => Except.ok val
          | none =>
            Except.error ("Step " ++ squote ++ source ++ squote
              ++ " not found or not yet executed")
      match srcVal with
      | Except.ok sv => navigatePath path sv source
      | Except.error e => Except.error e

mutual

/-- PipelineExecutor::resolve_args: strings beginning with a dollar
sign are variable references; objects and arrays are resolved
recursively; every other value is returned unchanged. -/
def resolve_args (args input : Json) (step_results : List (String × Json))
    (prev_output : Option Json) : Except String Json :=
  match args with
  | Json.str s =>
    if s.startsWith "$" then resolve_variable s input step_results prev_output
    else Except.ok (Json.str s)
  | Json.obj fields =>
    match resolve_args_fields fields input step_results prev_output with
    | Except.ok fs => Except.ok (Json.obj fs)
    | Except.error e => Except.error e
  | Json.arr items =>
    match resolve_args_list items input step_results prev_output with
    | Except.ok xs => Except.ok (Json.arr xs)
    | Except.error e => Except.error e
  | other => Except.ok other

def resolve_args_list (items : List Json) (input : Json)
    (step_results : List (String × Json)) (prev_output : Option Json) :
    Except String (List Json) :=
  match items with
  | [] => Except.ok []
  | x :: xs =>
    match resolve_args x input step_results prev_output with
    | Except.ok x2 =>
      match resolve_args_list xs input step_results prev_output with
      | Except.ok xs2 => Except.ok (x2 :: xs2)
      | Except.error e => Except.error e
    | Except.error e => Except.error e

def resolve_args_fields (fields : List (String × Json)) (input : Json)
    (step_results : List (String × Json)) (prev_output : Option Json) :
    Except String (List (String × Json)) :=
  match fields with
  | [] => Except.ok []
  | (k, v) :: rest =>
    match resolve_args v input step_results prev_output with
    | Except.ok v2 =>
      match resolve_args_fields rest input step_results prev_output with
      | Except.ok rest2 => Except.ok ((k, v2) :: rest2)
      | Except.error e => Except.error e
    | Except.error e => Except.error e

end

/-- Truthiness from evaluate_condition: true booleans, non-empty
strings, non-zero numbers, non-empty arrays and objects are truthy. -/
def jsonTruthy : Json → Bool
  | Json.bool b => b
  | Json.null => false
  | Json.str s => !(s == "")
  | Json.num n => n != 0
  | Json.arr a => !a.isEmpty
  | Json.obj o => !o.isEmpty

/-- PipelineExecutor::resolve_condition_value: a dollar reference, a
boolean/null literal, an integer literal, or a (possibly quoted)
string.  The f64 fallback branch of the source is not modelled; no
claim exercises float-valued condition literals. -/
def resolve_condition_value (value : String) (input : Json)
    (step_results : List (String × Json)) (prev_output : Option Json) :
    Except String Json :=
  let v := value.trim
  if v.startsWith "$" then resolve_variable v input step_results prev_output
  else if v == "true" then Except.ok (Json.bool true)
  else if v == "false" then Except.ok (Json.bool false)
  else if v == "null" then Except.ok Json.null
  else
    match v.toInt? with
    | some n => Except.ok (Json.num n)
    | none =>
      Except.ok (Json.str (trimMatchesChar (trimMatchesChar v dquoteChar) squoteChar))

/-- PipelineExecutor::evaluate_condition: an equality, an inequality,
or a truthiness check over resolved condition values. -/
def evaluate_condition (condition : String) (input : Json)
    (step_results : List (String × Json)) (prev_output : Option Json) :
    Except String Bool :=
  let c := condition.trim
  if contains_substr c "==" then
    match (c.splitOn "==").map String.trim with
    | [l, r] =>
      match resolve_condition_value l input step_results prev_output with
      | Except.ok lv =>
        match resolve_condition_value r input step_results prev_output with
        | Except.ok rv => Except.ok (jsonEq lv rv)
        | Except.error e => Except.error e
      | Except.error e => Except.error e
    | _ => Except.error ("Invalid condition: " ++ c)
  else if contains_substr c "!=" then
    match (c.splitOn "!=").map String.trim with
    | [l, r] =>
      match resolve_condition_value l input step_results prev_output with
      | Except.ok lv =>
        match resolve_condition_value r input step_results prev_output with
        | Except.ok rv => Except.ok (!(jsonEq lv rv))
        | Except.error e => Except.error e
      | Except.error e => Except.error e
    | _ => Except.error ("Invalid condition: " ++ c)
  else
    match resolve_condition_value c input step_results prev_output with
    | Except.ok v => Except.ok (jsonTruthy v)
    | Except.error e => Except.error e

/-- StepResult from pipeline.rs. -/
structure StepResult where
  step_index : Nat
  step_name : Option String
  tool : String
  success : Bool
  output : Json
  error : Option String
  duration_ms : Nat

/-- Mutable state threaded through the execute_pipeline loop of
main.rs: the named-step bindings, the previous output, the recorded
per-step results and the overall success flag. -/
structure PipeState where
  step_results : List (String × Json)
  prev_output : Option Json
  results : List StepResult
  pipeline_success : Bool

/-- Initial loop state (empty bindings, no previous output). -/
def PipeState.init : PipeState := ⟨[], none, [], true⟩

/-- The binding update after a tool invocation: a named step records
its output under its name, an unnamed step records nothing. -/
def bindName : Option String → Json → List (String × Json) → List (String × Json)
  | some n, out, sr => alinsert sr n out
  | none, _, sr => sr

/-- Body of one loop iteration after the condition has passed: resolve
the arguments, invoke the tool via the oracle, then (on both success
and failure of the invocation) overwrite prev_output and the named
binding with the recorded output; record the StepResult; the returned
Bool is whether the loop proceeds to the next step. -/
def run_step_body (exec : String → Json → Except String Json) (input : Json) (i : Nat)
    (step : PipelineStep) (st : PipeState) : PipeState × Bool :=
  match resolve_args step.args input st.step_results st.prev_output with
  | Except.error e =>
    let st2 := { st with
      results := st.results ++
        [⟨i, step.name, step.tool, false, Json.null,
          some ("Failed to resolve arguments: " ++ e), 0⟩] }
    if step.continue_on_error then (st2, true)
    else ({ st2 with pipeline_success := false }, false)
  | Except.ok resolved =>
    match exec step.tool resolved with
    | Except.ok output =>
      ({ st with
          step_results := bindName step.name output st.step_results,
          prev_output := some output,
          results := st.results ++ [⟨i, step.name, step.tool, true, output, none, 0⟩] },
        true)
    | Except.error e =>
      let st2 := { st with
        step_results := bindName step.name Json.null st.step_results,
        prev_output := some Json.null,
        results := st.results ++ [⟨i, step.name, step.tool, false, Json.null, some e, 0⟩] }
      if step.continue_on_error then (st2, true)
      else ({ st2 with pipeline_success := false }, false)

/-- One iteration of the execute_pipeline loop: evaluate the optional
condition (skip on false, record an error on failure), then run the
body. -/
def run_step (exec : String → Json → Except String Json) (input : Json) (i : Nat)
    (step : PipelineStep) (st : PipeState) : PipeState × Bool :=
  match step.condition with
  | some c =>
    match evaluate_condition c input st.step_results st.prev_output with
    | Except.ok true => run_step_body exec input i step st
    | Except.ok false =>
      ({ st with
          results := st.results ++
            [⟨i, step.name, step.tool, true,
              Json.obj [("skipped", Json.bool true), ("reason", Json.str "condition not met")],
              none, 0⟩] },
        true)
    | Except.error e =>
      let st2 := { st with
        results := st.results ++
          [⟨i, step.name, step.tool, false, Json.null,
            some ("Condition evaluation failed: " ++ e), 0⟩] }
      if step.continue_on_error then (st2, true)
      else ({ st2 with pipeline_success := false }, false)
  | none => run_step_body exec input i step st

/-- The execute_pipeline loop over the declared steps in order. -/
def execute_pipeline_steps (exec : String → Json → Except String Json) (input : Json) :
    List PipelineStep → Nat → PipeState → PipeState
  | [], _, st => st
  | step :: rest, i, st =>
    let r := run_step exec input i step st
    if r.2 then execute_pipeline_steps exec input rest (i + 1) r.1 else r.1

/-- main.rs::execute_pipeline up to the point where the loop state is
complete (the subsequent markdown rendering of the results is not
modelled). -/
def execute_pipeline (exec : String → Json → Except String Json)
    (steps : List PipelineStep) (input : Json) : PipeState :=
  execute_pipeline_steps exec input steps 0 PipeState.init

/-- Oracle whose every tool invocation fails, for the C4
counterexample. -/
def execFailC4 : String → Json → Except String Json :=
  fun _ _ => Except.error "tool failed"

/-- The single named step of the C4 counterexample. -/
def c4Step : PipelineStep :=
  { name := some "a", tool := "boom", args := Json.obj [], continue_on_error := false,
    condition := none }

/-- C4 counterexample: a named step whose tool invocation fails does
NOT leave prev_output and step_results unchanged — the loop overwrites
prev_output with null and binds the step name to null (main.rs performs
the two binding updates before checking success). -/
theorem pipeline_failed_step_changes_bindings :
    (execute_pipeline execFailC4 [c4Step] (Json.obj [])).prev_output = some Json.null
    ∧ alookup (execute_pipeline execFailC4 [c4Step] (Json.obj [])).step_results "a"
        = some Json.null
    ∧ (execute_pipeline execFailC4 [c4Step] (Json.obj [])).prev_output ≠ none
    ∧ alookup (execute_pipeline execFailC4 [c4Step] (Json.obj [])).step_results "a"
        ≠ none := by
  have hres : resolve_args (Json.obj []) (Json.obj []) [] none = Except.ok (Json.obj []) := by
    simp [resolve_args, resolve_args_fields]
  simp [execute_pipeline, execute_pipeline_steps, run_step, run_step_body, c4Step,
    PipeState.init, execFailC4, bindName, alinsert, alookup, hres]

/-- C4 amended.  For one executed step: when the condition passes and
the arguments resolve, a successful invocation sets prev_output to the
output and binds the step name to it; a FAILED invocation likewise sets
prev_output to null and binds the step name to null; only a false
condition, a condition-evaluation error, or an argument-resolution
error leave prev_output and step_results unchanged. -/
theorem pipeline_step_binding_semantics (exec : String → Json → Except String Json)
    (input : Json) (i : Nat) (step : PipelineStep) (st : PipeState) :
    ((step.condition = none ∨ ∃ c, step.condition = some c
        ∧ evaluate_condition c input st.step_results st.prev_output = Except.ok true) →
      (∀ ra out, resolve_args step.args input st.step_results st.prev_output = Except.ok ra →
        exec step.tool ra = Except.ok out →
        (run_step exec input i step st).1.prev_output = some out
        ∧ (run_step exec input i step st).1.step_results
            = bindName step.name out st.step_results)
      ∧ (∀ ra e, resolve_args step.args input st.step_results st.prev_output = Except.ok ra →
        exec step.tool ra = Except.error e →
        (run_step exec input i step st).1.prev_output = some Json.null
        ∧ (run_step exec input i step st).1.step_results
            = bindName step.name Json.null st.step_results)
      ∧ (∀ e, resolve_args step.args input st.step_results st.prev_output = Except.error e →
        (run_step exec input i step st).1.prev_output = st.prev_output
        ∧ (run_step exec input i step st).1.step_results = st.step_results))
    ∧ (∀ c, step.condition = some c →
        evaluate_condition c input st.step_results st.prev_output = Except.ok false →
        (run_step exec input i step st).1.prev_output = st.prev_output
        ∧ (run_step exec input i step st).1.step_results = st.step_results)
    ∧ (∀ c e, step.condition = some c →
        evaluate_condition c input st.step_results st.prev_output = Except.error e →
        (run_step exec input i step st).1.prev_output = st.prev_output
        ∧ (run_step exec input i step st).1.step_results = st.step_results) := by
  refine ⟨?_, ?_, ?_⟩
  · intro hcond
    have hbody : run_step exec input i step st = run_step_body exec input i step st := by
      rcases hcond with h | ⟨c, hc, heval⟩
      · simp [run_step, h]
      · simp [run_step, hc, heval]
    refine ⟨?_, ?_, ?_⟩
    · intro ra out hres hexec
      rw [hbody]
      simp [run_step_body, hres, hexec]
    · intro ra e hres hexec
      rw [hbody]
      cases hco : step.continue_on_error <;>
        simp [run_step_body, hres, hexec, hco]
    · intro e hres
      rw [hbody]
      cases hco : step.continue_on_error <;>
        simp [run_step_body, hres, hco]
  · intro c hc heval
    simp [run_step, hc, heval]
  · intro c e hc heval
    cases hco : step.continue_on_error <;>
      simp [run_step, hc, heval, hco]

/-- Oracle for the C4 witness: every invocation succeeds with a fixed
output. -/
def execOkC4 : String → Json → Except String Json :=
  fun _ _ => Except.ok (Json.str "out")

/-- C4 amended witness: a concrete successful named step binds
prev_output and the name to the output, and a concrete failed step
binds both to null. -/
theorem pipeline_step_binding_semantics_witness :
    (run_step execOkC4 (Json.obj []) 0 c4Step PipeState.init).1.prev_output
        = some (Json.str "out")
    ∧ (run_step execOkC4 (Json.obj []) 0 c4Step PipeState.init).1.step_results
        = [("a", Json.str "out")]
    ∧ (run_step execFailC4 (Json.obj []) 0 c4Step PipeState.init).1.prev_output
        = some Json.null :=
  ⟨((pipeline_step_binding_semantics execOkC4 (Json.obj []) 0 c4Step PipeState.init).1
      (Or.inl rfl)).1 (Json.obj []) (Json.str "out")
      (by simp [c4Step, PipeState.init, resolve_args, resolve_args_fields]) rfl |>.1,
   ((pipeline_step_binding_semantics execOkC4 (Json.obj []) 0 c4Step PipeState.init).1
      (Or.inl rfl)).1 (Json.obj []) (Json.str "out")
      (by simp [c4Step, PipeState.init, resolve_args, resolve_args_fields]) rfl |>.2,
   ((pipeline_step_binding_semantics execFailC4 (Json.obj []) 0 c4Step PipeState.init).1
      (Or.inl rfl)).2.1 (Json.obj []) "tool failed"
      (by simp [c4Step, PipeState.init, resolve_args, resolve_args_fields]) rfl |>.1⟩

/-! ### Script executor stdout loop (src/runtime.rs, call_script_tool)

The subprocess is external: its stdout is modelled as a list of lines,
each either already parsed as a JSON-RPC message (serde succeeded) or
opaque text (serde failed), together with the stderr contents and the
exit code.  The loop, the log/progress collection, the stderr
append and the final output determination are the embedded repo code. -/

/-- JsonRpcError from runtime.rs. -/
structure JsonRpcError where
  code : Int
  message : String
  data : Option Json

/-- JsonRpcResponse from runtime.rs (every field optional, serde
defaults). -/
structure JsonRpcResponse where
  result : Option Json
  error : Option JsonRpcError
  method : Option String
  params : Option Json
  id : Option Nat

/-- One stdout line: rpc when serde_json::from_str::<JsonRpcResponse>
succeeded on it, text otherwise. -/
inductive ScriptLine where
  | text (s : String)
  | rpc (r : JsonRpcResponse)

/-- LogEntry from runtime.rs. -/
structure LogEntry where
  level : String
  message : String
  data : Option Json

/-- ProgressUpdate from runtime.rs (current and total default to 0). -/
structure ProgressUpdate where
  current : Nat
  total : Nat
  message : Option String

/-- serde_json::from_value::<LogEntry>: level and message are required
strings; data is optional (null and missing both give None). -/
def decodeLogEntry (j : Json) : Option LogEntry :=
  match jsonGet j "level", jsonGet j "message" with
  | some (Json.str l), some (Json.str m) =>
    some ⟨l, m,
      match jsonGet j "data" with
      | some Json.null => none
      | some v => some v
      | none => none⟩
  | _, _ => none

/-- Decode of a defaulting u64 field for ProgressUpdate. -/
def decodeNatField (j : Json) (k : String) : Option Nat :=
  match jsonGet j k with
  | none => some 0
  | some (Json.num n) => if 0 ≤ n then some n.toNat else none
  | some _ => none

/-- serde_json::from_value::<ProgressUpdate>. -/
def decodeProgressUpdate (j : Json) : Option ProgressUpdate :=
  match j with
  | Json.obj _ =>
    match decodeNatField j "current", decodeNatField j "total" with
    | some c, some t =>
      match jsonGet j "message" with
      | none => some ⟨c, t, none⟩
      | some Json.null => some ⟨c, t, none⟩
      | some (Json.str m) => some ⟨c, t, some m⟩
      | some _ => none
    | _, _ => none
  | _ => none

mutual

/-- Rendering of a JSON value (the Display of serde_json::Value used in
the error-data message; string escaping is not modelled, no claim
inspects rendered text). -/
def jsonRender : Json → String
  | Json.null => "null"
  | Json.bool b => if b then "true" else "false"
  | Json.num n => toString n
  | Json.str s => dquoteChar.toString ++ s ++ dquoteChar.toString
  | Json.arr l => "[" ++ jsonRenderList l ++ "]"
  | Json.obj f => "\x7b" ++ jsonRenderFields f ++ "\x7d"

def jsonRenderList : List Json → String
  | [] => ""
  | [x] => jsonRender x
  | x :: xs => jsonRender x ++ "," ++ jsonRenderList xs

def jsonRenderFields : List (String × Json) → String
  | [] => ""
  | [(k, v)] => dquoteChar.toString ++ k ++ dquoteChar.toString ++ ":" ++ jsonRender v
  | (k, v) :: xs =>
    dquoteChar.toString ++ k ++ dquoteChar.toString ++ ":" ++ jsonRender v ++ ","
      ++ jsonRenderFields xs

end

/-- State of the stdout reading loop in call_script_tool. -/
structure ScriptLoopState where
  logs : List LogEntry
  progress : List ProgressUpdate
  final_result : Option Json
  final_error : Option String

/-- Processing of one stdout line: blank lines are skipped; a message
with a method is a notification (log and progress are collected, other
methods ignored); a message without a method sets the final
error or final result; non-JSON text becomes the fallback result when
no structured result has arrived yet. -/
def process_line (st : ScriptLoopState) (l : ScriptLine) : ScriptLoopState :=
  match l with
  | ScriptLine.text s =>
    if s.trim = "" then st
    else if st.final_result.isNone then { st with final_result := some (Json.str s) }
    else st
  | ScriptLine.rpc r =>
    match r.method with
    | some m =>
      if m == "log" || m == "logging/message" then
        match r.params with
        | some p =>
          match decodeLogEntry p with
          | some log => { st with logs := st.logs ++ [log] }
          | none => st
        | none => st
      else if m == "progress" || m == "notifications/progress" then
        match r.params with
        | some p =>
          match decodeProgressUpdate p with
          | some pr => { st with progress := st.progress ++ [pr] }
          | none => st
        | none => st
      else st
    | none =>
      match r.error with
      | some err =>
        let base := "Error " ++ toString err.code ++ ": " ++ err.message
        let msg :=
          match err.data with
          | some d => base ++ "\nData: " ++ jsonRender d
          | none => base
        { st with final_error := some msg }
      | none =>
        match r.result with
        | some res => { st with final_result := some res }
        | none => st

/-- ScriptResult from runtime.rs. -/
structure ScriptResult where
  output : Json
  logs : List LogEntry
  progress : List ProgressUpdate

/-- ToolRuntime::call_script_tool from the stdout loop on: fold the
lines, append non-empty stderr to the log buffer as an error entry,
then determine the output (final error, else final result, else the
exit-status message on a non-zero exit, else the no-output string). -/
def call_script_tool (lines : List ScriptLine) (stderr : String) (exit_code : Nat) :
    ScriptResult :=
  let st := lines.foldl process_line ⟨[], [], none, none⟩
  let logs :=
    if stderr = "" then st.logs
    else st.logs ++ [⟨"error", stderr, none⟩]
  let output :=
    match st.final_error with
    | some err => Json.str err
    | none =>
      match st.final_result with
      | some r => r
      | none =>
        if exit_code != 0 then
          Json.str ("Script exited with status: exit status: " ++ toString exit_code)
        else Json.str "Script completed with no output"
  ⟨output, logs, st.progress⟩

/-- Serialization of a collected LogEntry
(serde_json::to_value over the logs vector). -/
def logEntryToJson (l : LogEntry) : Json :=
  Json.obj [("level", Json.str l.level), ("message", Json.str l.message),
    ("data", l.data.getD Json.null)]

/-- The Script arm of ToolRuntime::call_tool: the bare output when no
logs were collected, otherwise an object with the result and the logs. -/
def call_tool_script (lines : List ScriptLine) (stderr : String) (exit_code : Nat) : Json :=
  let result := call_script_tool lines stderr exit_code
  if result.logs.isEmpty then result.output
  else
    Json.obj [("result", result.output),
      ("logs", Json.arr (result.logs.map logEntryToJson))]

/-- C9.  A script that writes nothing to stdout and exits 0 yields the
defined result string, whatever its stderr produced. -/
theorem script_no_output_success (stderr : String) :
    (call_script_tool [] stderr 0).output = Json.str "Script completed with no output" :=
  rfl

/-- C10.  call_tool on a script returns the bare output when the
collected log buffer is empty and the wrapped result/logs object when
it is not; any non-empty stderr makes the buffer non-empty. -/
theorem call_tool_logs_wrapping (lines : List ScriptLine) (stderr : String)
    (exit_code : Nat) :
    ((call_script_tool lines stderr exit_code).logs = [] →
      call_tool_script lines stderr exit_code
        = (call_script_tool lines stderr exit_code).output)
    ∧ ((call_script_tool lines stderr exit_code).logs ≠ [] →
      call_tool_script lines stderr exit_code
        = Json.obj [("result", (call_script_tool lines stderr exit_code).output),
            ("logs", Json.arr
              ((call_script_tool lines stderr exit_code).logs.map logEntryToJson))])
    ∧ (stderr ≠ "" → (call_script_tool lines stderr exit_code).logs ≠ []) := by
  refine ⟨?_, ?_, ?_⟩
  · intro h
    simp [call_tool_script, h]
  · intro h
    rcases hl : (call_script_tool lines stderr exit_code).logs with _ | ⟨x, xs⟩
    · exact absurd hl h
    · simp [call_tool_script, hl]
  · intro h
    unfold call_script_tool
    simp [h]

/-- Concrete log-notification line for the C10 witness. -/
def logLineW : ScriptLine :=
  ScriptLine.rpc
    { result := none, error := none, method := some "log",
      params := some (Json.obj [("level", Json.str "info"), ("message", Json.str "hi")]),
      id := none }

/-- C10 witness: one log notification produces the wrapped object, and
no collected logs produce the bare output. -/
theorem call_tool_logs_wrapping_witness :
    call_tool_script [logLineW] "" 0
      = Json.obj [("result", Json.str "Script completed with no output"),
          ("logs", Json.arr [Json.obj [("level", Json.str "info"),
            ("message", Json.str "hi"), ("data", Json.null)]])]
    ∧ call_tool_script [] "" 0 = Json.str "Script completed with no output" := by
  refine ⟨?_, ?_⟩
  · exact (call_tool_logs_wrapping [logLineW] "" 0).2.1 (by
      rw [show (call_script_tool [logLineW] "" 0).logs
        = [⟨"info", "hi", none⟩] from rfl]
      simp)
  · exact (call_tool_logs_wrapping [] "" 0).1 rfl

end Skillz
